import Mathlib

/-!
Verification development for the reminder subsystem of `src/bot.py`
(PeterBot): the free-text reminder-time parser `parse_reminder_time`
together with its helpers `add_one_year` and `normalize_2_digit_year`,
and the `ReminderManager` scheduler/persistence engine.

The Python code is shallowly embedded:
* `datetime.datetime` becomes the `DateTime` structure below (naive
  local wall-clock, microsecond precision); Python's field-lexicographic
  comparison of naive datetimes becomes `dtLeB`; `datetime + timedelta`
  becomes `DateTime.addSeconds` via proleptic-Gregorian epoch arithmetic.
* `datetime.strptime` is embedded for exactly the fixed format strings
  the source uses, reproducing CPython's `_strptime` regular expressions
  (including their backtracking order), the default year 1900 when the
  format has no year directive, `%y`'s 0-68 → 2000s / 69-99 → 1900s
  mapping, `%Y` requiring exactly four digits, and the `datetime`
  constructor's range validation.
* File I/O becomes an explicit `FileSystem` record; `datetime.now()`
  becomes an explicit `now` argument (the spec's injectable clock).
* Python's `list.sort(key=...)` (a stable sort) becomes
  `List.insertionSort`, which is also stable, hence extensionally equal.
-/

namespace PeterBot

/-- The whitespace characters stripped by Python's `str.strip()` and
matched by the regex class `\s` (ASCII range, which is all the source's
inputs use). -/
def pyIsSpace (c : Char) : Bool :=
  c = ' ' || c = '\t' || c = '\n' || c = '\x0d' || c = '\x0b' || c = '\x0c'

/-- Python `str.strip()` on a character list: drop whitespace from both
ends. -/
def pyStrip (l : List Char) : List Char :=
  ((l.dropWhile pyIsSpace).reverse.dropWhile pyIsSpace).reverse

/-- Python `str.lower()` on one character (ASCII case, which is all the
source's patterns distinguish). -/
def pyToLower (c : Char) : Char :=
  if 65 ≤ c.toNat && c.toNat ≤ 90 then Char.ofNat (c.toNat + 32) else c

/-- The regex class `\d` / `str.isdigit` for ASCII digits. -/
def isDigitCh (c : Char) : Bool := 48 ≤ c.toNat && c.toNat ≤ 57

/-- Embedding of Python's naive `datetime.datetime`: year, month, day,
hour, minute, second, microsecond. -/
structure DateTime where
  year : Nat
  month : Nat
  day : Nat
  hour : Nat
  minute : Nat
  second : Nat
  usec : Nat
deriving DecidableEq, Repr

/-- Python compares naive datetimes field-lexicographically
(year, month, day, hour, minute, second, microsecond); this is the
ordering used by `reminders.sort(key=lambda r: r["remind_time"])` and by
`r["remind_time"] <= now`. -/
def dtLeB (a b : DateTime) : Bool :=
  if a.year < b.year then true else if b.year < a.year then false else
  if a.month < b.month then true else if b.month < a.month then false else
  if a.day < b.day then true else if b.day < a.day then false else
  if a.hour < b.hour then true else if b.hour < a.hour then false else
  if a.minute < b.minute then true else if b.minute < a.minute then false else
  if a.second < b.second then true else if b.second < a.second then false else
  a.usec ≤ b.usec

/-- Strict version: `r["remind_time"] > now` in `pop_due_reminders`. -/
def dtLtB (a b : DateTime) : Bool := !dtLeB b a

/-- Gregorian leap-year rule, as used by Python's `calendar`/`datetime`
validation. -/
def isLeap (y : Nat) : Bool :=
  y % 4 = 0 && (y % 100 != 0 || y % 400 = 0)

/-- Length of a month in a given year (Python `datetime` validation). -/
def daysInMonth (y m : Nat) : Nat :=
  if m = 2 then (if isLeap y then 29 else 28)
  else if m = 4 || m = 6 || m = 9 || m = 11 then 30
  else 31

/-- The `datetime.datetime(...)` constructor's validation: `MINYEAR = 1`,
`MAXYEAR = 9999`, month, day, and clock fields in range. -/
def validDT (dt : DateTime) : Bool :=
  1 ≤ dt.year && dt.year ≤ 9999 &&
  1 ≤ dt.month && dt.month ≤ 12 &&
  1 ≤ dt.day && dt.day ≤ daysInMonth dt.year dt.month &&
  dt.hour ≤ 23 && dt.minute ≤ 59 && dt.second ≤ 59 && dt.usec ≤ 999999

/-- `datetime.datetime(y, mo, d, h, mi, s, us)`: `ValueError` (here
`none`) when a field is out of range. -/
def mkDateTime (y mo d h mi s us : Nat) : Option DateTime :=
  let dt : DateTime := ⟨y, mo, d, h, mi, s, us⟩
  if validDT dt then some dt else none

/-- Days since 1970-01-01 of a proleptic-Gregorian civil date
(Howard Hinnant's `days_from_civil`, floor divisions made explicit). -/
def daysFromCivil (y m d : Int) : Int :=
  let y' : Int := if m ≤ 2 then y - 1 else y
  let era : Int := Int.fdiv y' 400
  let yoe : Int := y' - era * 400
  let mp : Int := Int.fmod (m + 9) 12
  let doy : Int := (153 * mp + 2) / 5 + d - 1
  let doe : Int := yoe * 365 + yoe / 4 - yoe / 100 + doy
  era * 146097 + doe - 719468

/-- Inverse of `daysFromCivil` (Hinnant's `civil_from_days`). -/
def civilFromDays (z0 : Int) : Int × Int × Int :=
  let z : Int := z0 + 719468
  let era : Int := Int.fdiv z 146097
  let doe : Int := z - era * 146097
  let yoe : Int := (doe - doe / 1460 + doe / 36524 - doe / 146096) / 365
  let y : Int := yoe + era * 400
  let doy : Int := doe - (365 * yoe + yoe / 4 - yoe / 100)
  let mp : Int := (5 * doy + 2) / 153
  let d : Int := doy - (153 * mp + 2) / 5 + 1
  let m : Int := mp + (if mp < 10 then 3 else -9)
  (if m ≤ 2 then y + 1 else y, m, d)

/-- Seconds since the epoch of a `DateTime` (microseconds excluded). -/
def DateTime.toEpochSecs (dt : DateTime) : Int :=
  daysFromCivil dt.year dt.month dt.day * 86400
    + dt.hour * 3600 + dt.minute * 60 + dt.second

/-- `dt + timedelta(seconds=k)`: Python's naive-datetime arithmetic is
exact proleptic-Gregorian calendar arithmetic; the microsecond field is
untouched by whole-second deltas (all deltas the source adds are whole
seconds). -/
def DateTime.addSeconds (dt : DateTime) (k : Int) : DateTime :=
  let t : Int := dt.toEpochSecs + k
  let days : Int := Int.fdiv t 86400
  let rem : Int := Int.fmod t 86400
  let c := civilFromDays days
  { year := c.1.toNat, month := c.2.1.toNat, day := c.2.2.toNat,
    hour := (rem / 3600).toNat, minute := (Int.fmod rem 3600 / 60).toNat,
    second := (Int.fmod rem 60).toNat, usec := dt.usec }

/-- `a - b` as a whole number of microseconds (Python `timedelta` from
datetime subtraction). -/
def DateTime.subMicros (a b : DateTime) : Int :=
  (a.toEpochSecs - b.toEpochSecs) * 1000000 + (a.usec : Int) - (b.usec : Int)

/-- `add_one_year` (src/bot.py:801-807): `dt.replace(year=dt.year + 1)`,
which raises `ValueError` exactly when `dt` is Feb 29 and the next year
is not a leap year; that case is mapped to Feb 28 of the next year. -/
def add_one_year (dt : DateTime) : DateTime :=
  if dt.month = 2 && dt.day = 29 && !isLeap (dt.year + 1) then
    { dt with year := dt.year + 1, month := 2, day := 28 }
  else
    { dt with year := dt.year + 1 }

/-- `normalize_2_digit_year` (src/bot.py:810-814): map strptime's 19xx
values for `%y` into the 20xx range. -/
def normalize_2_digit_year (dt : DateTime) : DateTime :=
  if dt.year < 2000 then { dt with year := dt.year + 100 } else dt

/-! ### `datetime.strptime` for the source's fixed format strings

CPython's `_strptime` compiles a format string to a regular expression
(one group per directive, literal whitespace becoming `\s+`), matches it
against the whole input, then builds a `datetime`.  The directive
patterns (from `Lib/_strptime.py`, locale `en_US` defaults, compiled
with `re.IGNORECASE`) are:

* `%m`, `%I`: `1[0-2]|0[1-9]|[1-9]`
* `%d`: `3[01]|[12]\d|0[1-9]|[1-9]| [1-9]`
* `%H`: `2[0-3]|[0-1]\d|\d`
* `%M`: `[0-5]\d|\d`
* `%Y`: `\d\d\d\d` (exactly four digits)
* `%y`: `\d\d` (exactly two digits; values 0-68 are 2000-2068 and
  69-99 are 1969-1999)
* `%p`: `AM|PM` (case-insensitive)

A directive is embedded as the ordered list of `(value, remaining
input)` alternatives its pattern can produce, and sequencing takes the
first alternative under which the rest of the format matches — exactly
the leftmost-with-backtracking semantics of the compiled regex. -/

/-- Numeric value of a digit character. -/
def dv (c : Char) : Nat := c.toNat - 48

/-- Format-string tokens: literal separator characters, literal
whitespace (`\s+`), and the strptime directives the source uses. -/
inductive FTok where
  | lit (c : Char)
  | ws
  | dirY
  | dirY2
  | dirMo
  | dirDay
  | dirH
  | dirI
  | dirMin
  | dirP
deriving DecidableEq, Repr

/-- `%m` / `%I`: `1[0-2]|0[1-9]|[1-9]`. -/
def monthCands : List Char → List (Nat × List Char)
  | [] => []
  | c1 :: rest =>
    (match rest with
     | c2 :: rest2 =>
       (if c1 = '1' && (c2 = '0' || c2 = '1' || c2 = '2')
        then [(10 + dv c2, rest2)] else []) ++
       (if c1 = '0' && isDigitCh c2 && c2 ≠ '0'
        then [(dv c2, rest2)] else [])
     | [] => []) ++
    (if isDigitCh c1 && c1 ≠ '0' then [(dv c1, rest)] else [])

/-- `%d`: `3[01]|[12]\d|0[1-9]|[1-9]| [1-9]`. -/
def dayCands : List Char → List (Nat × List Char)
  | [] => []
  | c1 :: rest =>
    (match rest with
     | c2 :: rest2 =>
       (if c1 = '3' && (c2 = '0' || c2 = '1')
        then [(30 + dv c2, rest2)] else []) ++
       (if (c1 = '1' || c1 = '2') && isDigitCh c2
        then [(10 * dv c1 + dv c2, rest2)] else []) ++
       (if c1 = '0' && isDigitCh c2 && c2 ≠ '0'
        then [(dv c2, rest2)] else [])
     | [] => []) ++
    (if isDigitCh c1 && c1 ≠ '0' then [(dv c1, rest)] else []) ++
    (match rest with
     | c2 :: rest2 =>
       if c1 = ' ' && isDigitCh c2 && c2 ≠ '0'
       then [(dv c2, rest2)] else []
     | [] => [])

/-- `%H`: `2[0-3]|[0-1]\d|\d`. -/
def hourCands : List Char → List (Nat × List Char)
  | [] => []
  | c1 :: rest =>
    (match rest with
     | c2 :: rest2 =>
       (if c1 = '2' && (c2 = '0' || c2 = '1' || c2 = '2' || c2 = '3')
        then [(20 + dv c2, rest2)] else []) ++
       (if (c1 = '0' || c1 = '1') && isDigitCh c2
        then [(10 * dv c1 + dv c2, rest2)] else [])
     | [] => []) ++
    (if isDigitCh c1 then [(dv c1, rest)] else [])

/-- `%M`: `[0-5]\d|\d`. -/
def minuteCands : List Char → List (Nat × List Char)
  | [] => []
  | c1 :: rest =>
    (match rest with
     | c2 :: rest2 =>
       if isDigitCh c1 && dv c1 ≤ 5 && isDigitCh c2
       then [(10 * dv c1 + dv c2, rest2)] else []
     | [] => []) ++
    (if isDigitCh c1 then [(dv c1, rest)] else [])

/-- `%Y`: exactly four digits. -/
def year4Cands : List Char → List (Nat × List Char)
  | c1 :: c2 :: c3 :: c4 :: rest =>
    if isDigitCh c1 && isDigitCh c2 && isDigitCh c3 && isDigitCh c4
    then [(((dv c1 * 10 + dv c2) * 10 + dv c3) * 10 + dv c4, rest)] else []
  | _ => []

/-- `%y`: exactly two digits. -/
def year2Cands : List Char → List (Nat × List Char)
  | c1 :: c2 :: rest =>
    if isDigitCh c1 && isDigitCh c2 then [(10 * dv c1 + dv c2, rest)] else []
  | _ => []

/-- `%p`: `AM|PM`, case-insensitive; value 0 for AM, 1 for PM. -/
def meridiemCands : List Char → List (Nat × List Char)
  | c1 :: c2 :: rest =>
    if pyToLower c1 = 'a' && pyToLower c2 = 'm' then [(0, rest)]
    else if pyToLower c1 = 'p' && pyToLower c2 = 'm' then [(1, rest)]
    else []
  | _ => []

/-- Literal whitespace in a format: `\s+`, greedy (longest run first). -/
def wsCands (l : List Char) : List (Nat × List Char) :=
  let n := (l.takeWhile pyIsSpace).length
  (List.range n).map (fun i => (0, l.drop (n - i)))

/-- A literal separator character. -/
def litCands (c : Char) : List Char → List (Nat × List Char)
  | x :: rest => if x = c then [(0, rest)] else []
  | [] => []

def tokCands : FTok → List Char → List (Nat × List Char)
  | .lit c => litCands c
  | .ws => wsCands
  | .dirY => year4Cands
  | .dirY2 => year2Cands
  | .dirMo => monthCands
  | .dirDay => dayCands
  | .dirH => hourCands
  | .dirI => monthCands
  | .dirMin => minuteCands
  | .dirP => meridiemCands

/-- The captured directive values of one strptime match. -/
structure Caps where
  capY : Option Nat := none
  capY2 : Option Nat := none
  capMo : Option Nat := none
  capDay : Option Nat := none
  capH : Option Nat := none
  capI : Option Nat := none
  capMin : Option Nat := none
  capP : Option Nat := none
deriving DecidableEq, Repr

def setCap (caps : Caps) : FTok → Nat → Caps
  | .lit _, _ => caps
  | .ws, _ => caps
  | .dirY, v => { caps with capY := some v }
  | .dirY2, v => { caps with capY2 := some v }
  | .dirMo, v => { caps with capMo := some v }
  | .dirDay, v => { caps with capDay := some v }
  | .dirH, v => { caps with capH := some v }
  | .dirI, v => { caps with capI := some v }
  | .dirMin, v => { caps with capMin := some v }
  | .dirP, v => { caps with capP := some v }

/-- Match a token list against the whole input (strptime rejects any
unconsumed suffix), backtracking through each token's alternatives. -/
def runToks : List FTok → Caps → List Char → Option Caps
  | [], caps, l => if l.isEmpty then some caps else none
  | t :: ts, caps, l =>
    (tokCands t l).findSome? (fun p => runToks ts (setCap caps t p.1) p.2)

/-- `datetime.strptime(input, fmt)`: run the format's regex, then build
the datetime the way `_strptime` does — default year 1900 when the
format has no year directive, `%y` mapped into 1969-2068, `%I` combined
with `%p` (PM adds 12 except for 12 PM; 12 AM is hour 0), defaults of 1
for month/day and 0 for the clock fields — and finally validate through
the `datetime` constructor. -/
def strptimeF (toks : List FTok) (l : List Char) : Option DateTime :=
  (runToks toks {} l).bind fun caps =>
    let year : Nat :=
      match caps.capY with
      | some y => y
      | none =>
        match caps.capY2 with
        | some y2 => if y2 ≤ 68 then 2000 + y2 else 1900 + y2
        | none => 1900
    let hour : Nat :=
      match caps.capI with
      | some i =>
        match caps.capP with
        | some 1 => if i = 12 then 12 else i + 12
        | _ => if i = 12 then 0 else i
      | none => caps.capH.getD 0
    mkDateTime year (caps.capMo.getD 1) (caps.capDay.getD 1)
      hour (caps.capMin.getD 0) 0 0

/-! ### The source's format-string lists (src/bot.py:866-965)

Each Python format string is written out as its token list.  For the
two with-year lists the paired `Bool` records the source's
`"%y" in fmt` substring test (true exactly for the formats written with
`%y` rather than `%Y`). -/

/-- `date_time_with_year` (src/bot.py:867-883). -/
def date_time_with_year : List (List FTok × Bool) :=
  [ ([.dirMo, .lit '/', .dirDay, .lit '/', .dirY, .ws, .dirH, .lit ':', .dirMin], false),
    ([.dirMo, .lit '-', .dirDay, .lit '-', .dirY, .ws, .dirH, .lit ':', .dirMin], false),
    ([.dirY, .lit '-', .dirMo, .lit '-', .dirDay, .ws, .dirH, .lit ':', .dirMin], false),
    ([.dirMo, .lit '/', .dirDay, .lit '/', .dirY, .ws, .dirI, .lit ':', .dirMin, .ws, .dirP], false),
    ([.dirMo, .lit '/', .dirDay, .lit '/', .dirY, .ws, .dirI, .lit ':', .dirMin, .dirP], false),
    ([.dirMo, .lit '-', .dirDay, .lit '-', .dirY, .ws, .dirI, .lit ':', .dirMin, .ws, .dirP], false),
    ([.dirMo, .lit '-', .dirDay, .lit '-', .dirY, .ws, .dirI, .lit ':', .dirMin, .dirP], false),
    ([.dirY, .lit '-', .dirMo, .lit '-', .dirDay, .ws, .dirI, .lit ':', .dirMin, .ws, .dirP], false),
    ([.dirY, .lit '-', .dirMo, .lit '-', .dirDay, .ws, .dirI, .lit ':', .dirMin, .dirP], false),
    ([.dirMo, .lit '/', .dirDay, .lit '/', .dirY2, .ws, .dirH, .lit ':', .dirMin], true),
    ([.dirMo, .lit '-', .dirDay, .lit '-', .dirY2, .ws, .dirH, .lit ':', .dirMin], true),
    ([.dirMo, .lit '/', .dirDay, .lit '/', .dirY2, .ws, .dirI, .lit ':', .dirMin, .ws, .dirP], true),
    ([.dirMo, .lit '/', .dirDay, .lit '/', .dirY2, .ws, .dirI, .lit ':', .dirMin, .dirP], true),
    ([.dirMo, .lit '-', .dirDay, .lit '-', .dirY2, .ws, .dirI, .lit ':', .dirMin, .ws, .dirP], true),
    ([.dirMo, .lit '-', .dirDay, .lit '-', .dirY2, .ws, .dirI, .lit ':', .dirMin, .dirP], true) ]

/-- `date_time_without_year` (src/bot.py:894-901). -/
def date_time_without_year : List (List FTok) :=
  [ [.dirMo, .lit '/', .dirDay, .ws, .dirH, .lit ':', .dirMin],
    [.dirMo, .lit '-', .dirDay, .ws, .dirH, .lit ':', .dirMin],
    [.dirMo, .lit '/', .dirDay, .ws, .dirI, .lit ':', .dirMin, .ws, .dirP],
    [.dirMo, .lit '/', .dirDay, .ws, .dirI, .lit ':', .dirMin, .dirP],
    [.dirMo, .lit '-', .dirDay, .ws, .dirI, .lit ':', .dirMin, .ws, .dirP],
    [.dirMo, .lit '-', .dirDay, .ws, .dirI, .lit ':', .dirMin, .dirP] ]

/-- `date_only_with_year` (src/bot.py:913-919). -/
def date_only_with_year : List (List FTok × Bool) :=
  [ ([.dirMo, .lit '/', .dirDay, .lit '/', .dirY], false),
    ([.dirMo, .lit '-', .dirDay, .lit '-', .dirY], false),
    ([.dirY, .lit '-', .dirMo, .lit '-', .dirDay], false),
    ([.dirMo, .lit '/', .dirDay, .lit '/', .dirY2], true),
    ([.dirMo, .lit '-', .dirDay, .lit '-', .dirY2], true) ]

/-- The date-only-without-year formats `"%m/%d"`, `"%m-%d"`
(src/bot.py:935). -/
def date_only_without_year : List (List FTok) :=
  [ [.dirMo, .lit '/', .dirDay],
    [.dirMo, .lit '-', .dirDay] ]

/-- The clock formats `"%H:%M"`, `"%I:%M %p"`, `"%I:%M%p"` used for the
tomorrow-with-time branch (src/bot.py:854) and the time-only branch
(src/bot.py:952). -/
def time_only_formats : List (List FTok) :=
  [ [.dirH, .lit ':', .dirMin],
    [.dirI, .lit ':', .dirMin, .ws, .dirP],
    [.dirI, .lit ':', .dirMin, .dirP] ]

/-! ### The relative-duration and tomorrow regular expressions -/

/-- The eighteen strings matched by the unit group
`seconds?|secs?|s|minutes?|mins?|m|hours?|hrs?|h|days?|d`
(src/bot.py:830): with `re.fullmatch`, the group is the last pattern
element, so it matches exactly when the remaining input is one of these
strings. -/
def unitTokens : List (List Char) :=
  [ "seconds".data, "second".data, "secs".data, "sec".data, "s".data,
    "minutes".data, "minute".data, "mins".data, "min".data, "m".data,
    "hours".data, "hour".data, "hrs".data, "hr".data, "h".data,
    "days".data, "day".data, "d".data ]

/-- Decimal value of a digit run (`int(relative_match.group(1))`). -/
def digitsVal (ds : List Char) : Nat :=
  ds.foldl (fun a c => a * 10 + dv c) 0

/-- `re.fullmatch(r"in\s+(\d+)\s*(units)", lowered)` (src/bot.py:829-832),
returning the captured amount and unit.  Greediness is exact here: a
shorter `\d+` capture would leave the unit group starting with a digit
and a shorter `\s*` would leave it starting with whitespace, and no unit
alternative starts with either, so the maximal-munch reading below is
the only way the full match can succeed. -/
def relMatch (l : List Char) : Option (Nat × List Char) :=
  match l with
  | 'i' :: 'n' :: rest =>
    if (rest.takeWhile pyIsSpace).isEmpty then none else
    let r1 := rest.dropWhile pyIsSpace
    let ds := r1.takeWhile isDigitCh
    if ds.isEmpty then none else
    let unit := (r1.dropWhile isDigitCh).dropWhile pyIsSpace
    if unitTokens.contains unit then some (digitsVal ds, unit) else none
  | _ => none

/-- `unit.startswith(tuple)`. -/
def startsWithAny (unit : List Char) (ps : List (List Char)) : Bool :=
  ps.any (fun p => p.isPrefixOf unit)

/-- The group of `re.fullmatch(r"tomorrow(?:\s+at)?\s+(.+)", lowered)`
(src/bot.py:851): after the literal `tomorrow`, the engine first tries
to take the optional `\s+at` (the whitespace run is maximal since `at`
must follow it immediately), then matches `\s+(.+)` with `\s+` greedy,
backtracking to shorter whitespace only so that the newline-free group
`(.+)` is non-empty; if the optional branch cannot complete, it is
dropped and `\s+(.+)` is matched directly. -/
def wsThenGroup (rest : List Char) : Option (List Char) :=
  let n := (rest.takeWhile pyIsSpace).length
  (List.range n).findSome? (fun i =>
    let g := rest.drop (n - i)
    if !g.isEmpty && !g.contains '\n' then some g else none)

def tomorrowTail (l : List Char) : Option (List Char) :=
  match l with
  | 't' :: 'o' :: 'm' :: 'o' :: 'r' :: 'r' :: 'o' :: 'w' :: rest =>
    let withAt : Option (List Char) :=
      let n := (rest.takeWhile pyIsSpace).length
      if n = 0 then none else
      match rest.drop n with
      | 'a' :: 't' :: rest2 => wsThenGroup rest2
      | _ => none
    match withAt with
    | some g => some g
    | none => wsThenGroup rest
  | _ => none

/-- `parse_reminder_time` (src/bot.py:817-967), with the ambient
`datetime.now()` default made an explicit `now` argument (the spec's
injectable clock). -/
def parse_reminder_time (time_str : String) (now : DateTime) : Option DateTime :=
  let raw := pyStrip time_str.data
  if raw.isEmpty then none else
  let lowered := raw.map pyToLower
  match relMatch lowered with
  | some (amount, unit) =>
    if amount = 0 then none
    else if startsWithAny unit ["second".data, "sec".data, "s".data] then
      some (now.addSeconds amount)
    else if startsWithAny unit ["minute".data, "min".data, "m".data] then
      some (now.addSeconds (60 * amount))
    else if startsWithAny unit ["hour".data, "hr".data, "h".data] then
      some (now.addSeconds (3600 * amount))
    else
      some (now.addSeconds (86400 * amount))
  | none =>
  if lowered = "tomorrow".data || lowered = "tmr".data || lowered = "tmrw".data then
    let t := now.addSeconds 86400
    some { t with second := 0, usec := 0 }
  else
  let tomorrowAt : Option DateTime :=
    match tomorrowTail lowered with
    | some timePart =>
      time_only_formats.findSome? (fun fmt =>
        (strptimeF fmt timePart).map (fun p =>
          let t := now.addSeconds 86400
          { t with hour := p.hour, minute := p.minute, second := 0, usec := 0 }))
    | none => none
  match tomorrowAt with
  | some r => some r
  | none =>
  match date_time_with_year.findSome? (fun fp =>
      (strptimeF fp.1 raw).map (fun p =>
        if fp.2 then normalize_2_digit_year p else p)) with
  | some r => some r
  | none =>
  match date_time_without_year.findSome? (fun fmt =>
      (strptimeF fmt raw).map (fun p =>
        let target : DateTime := { p with year := now.year, second := 0, usec := 0 }
        if dtLeB target now then add_one_year target else target)) with
  | some r => some r
  | none =>
  match date_only_with_year.findSome? (fun fp =>
      (strptimeF fp.1 raw).map (fun p =>
        let p' := if fp.2 then normalize_2_digit_year p else p
        { p' with hour := now.hour, minute := now.minute, second := 0, usec := 0 })) with
  | some r => some r
  | none =>
  match date_only_without_year.findSome? (fun fmt =>
      (strptimeF fmt raw).map (fun p =>
        let target : DateTime :=
          { p with year := now.year, hour := now.hour, minute := now.minute,
                   second := 0, usec := 0 }
        if dtLeB target now then add_one_year target else target)) with
  | some r => some r
  | none =>
  time_only_formats.findSome? (fun fmt =>
    (strptimeF fmt raw).map (fun p =>
      let target : DateTime :=
        { now with hour := p.hour, minute := p.minute, second := 0, usec := 0 }
      if dtLeB target now then target.addSeconds 86400 else target))

/-! ### `datetime.isoformat` / `datetime.fromisoformat` -/

/-- The `k`-digit zero-padded decimal rendering used by `isoformat`'s
fixed-width fields. -/
def padDigits : Nat → Nat → List Char
  | 0, _ => []
  | k + 1, n => padDigits k (n / 10) ++ [Nat.digitChar (n % 10)]

/-- Read exactly `k` digit characters, most significant first, onto the
accumulator `a`. -/
def readFixed : Nat → Nat → List Char → Option (Nat × List Char)
  | a, 0, l => some (a, l)
  | _, _ + 1, [] => none
  | a, k + 1, c :: l =>
    if isDigitCh c then readFixed (a * 10 + dv c) k l else none

/-- `datetime.isoformat()` (default separator `T`, `timespec='auto'`):
`YYYY-MM-DDTHH:MM:SS`, extended with `.ffffff` exactly when the
microsecond field is non-zero. -/
def isoformat (dt : DateTime) : List Char :=
  padDigits 4 dt.year ++ ('-' :: (padDigits 2 dt.month ++ ('-' :: (padDigits 2 dt.day
    ++ ('T' :: (padDigits 2 dt.hour ++ (':' :: (padDigits 2 dt.minute
    ++ (':' :: (padDigits 2 dt.second
    ++ (if dt.usec = 0 then [] else '.' :: padDigits 6 dt.usec)))))))))))

/-- Require one specific character (a literal of the ISO grammar). -/
def expectCh (c : Char) : List Char → Option (List Char)
  | x :: rest => if x = c then some rest else none
  | [] => none

/-- Consume the date-time separator: any single character. -/
def anySep : List Char → Option (List Char)
  | _ :: rest => some rest
  | [] => none

/-- `datetime.fromisoformat`: the grammar
`YYYY-MM-DD[*HH[:MM[:SS[.fff[fff]]]]]` (the separator `*` is any single
character), validated through the `datetime` constructor.  This is the
grammar guaranteed across the Python versions the source supports and a
superset of everything `isoformat` emits. -/
def pyFromIso (l : List Char) : Option DateTime :=
  (readFixed 0 4 l).bind fun p1 =>
  (expectCh '-' p1.2).bind fun l2 =>
  (readFixed 0 2 l2).bind fun p2 =>
  (expectCh '-' p2.2).bind fun l3 =>
  (readFixed 0 2 l3).bind fun p3 =>
  if p3.2.isEmpty then mkDateTime p1.1 p2.1 p3.1 0 0 0 0 else
  (anySep p3.2).bind fun l4 =>
  (readFixed 0 2 l4).bind fun p4 =>
  if p4.2.isEmpty then mkDateTime p1.1 p2.1 p3.1 p4.1 0 0 0 else
  (expectCh ':' p4.2).bind fun l5 =>
  (readFixed 0 2 l5).bind fun p5 =>
  if p5.2.isEmpty then mkDateTime p1.1 p2.1 p3.1 p4.1 p5.1 0 0 else
  (expectCh ':' p5.2).bind fun l6 =>
  (readFixed 0 2 l6).bind fun p6 =>
  if p6.2.isEmpty then mkDateTime p1.1 p2.1 p3.1 p4.1 p5.1 p6.1 0 else
  (expectCh '.' p6.2).bind fun l7 =>
  if (l7.dropWhile isDigitCh).isEmpty then
    if (l7.takeWhile isDigitCh).length = 6 then
      mkDateTime p1.1 p2.1 p3.1 p4.1 p5.1 p6.1 (digitsVal (l7.takeWhile isDigitCh))
    else if (l7.takeWhile isDigitCh).length = 3 then
      mkDateTime p1.1 p2.1 p3.1 p4.1 p5.1 p6.1 (digitsVal (l7.takeWhile isDigitCh) * 1000)
    else none
  else none

/-! ### `ReminderManager` (src/bot.py:279-404)

A reminder dict `{"user_id", "message", "remind_time", "created_at"}`
becomes the `Reminder` structure.  The two files the manager touches
become the explicit `FileSystem` record: `reminders.json` holds the
JSON-level list of serialized entries (an entry's fields are `Option`s,
since a persisted JSON object can lack a key — `KeyError` on load), and
`bot_shutdown.json` holds the serialized shutdown timestamp.  Python's
stable `list.sort(key=lambda r: r["remind_time"])` is embedded as
`List.insertionSort` (also stable, hence extensionally equal), and every
use of the ambient `datetime.now()` becomes an explicit `now` argument. -/

structure Reminder where
  user_id : Nat
  message : String
  remind_time : DateTime
  created_at : DateTime
deriving DecidableEq, Repr

/-- The sort order of `_sort_reminders` (src/bot.py:285-286). -/
def remLe (a b : Reminder) : Prop := dtLeB a.remind_time b.remind_time = true

instance : DecidableRel remLe := fun a b =>
  inferInstanceAs (Decidable (_ = true))

/-- One element of the persisted `reminders.json` list. -/
structure SavedEntry where
  user_id : Option Nat
  message : Option String
  remind_time : Option (List Char)
  created_at : Option (List Char)
deriving DecidableEq, Repr

structure FileSystem where
  remindersFile : Option (List SavedEntry)
  shutdownFile : Option (List Char)
deriving DecidableEq, Repr

structure ManagerState where
  reminders : List Reminder
deriving DecidableEq, Repr

/-- `save_reminders` (src/bot.py:288-304): serialize the in-memory list
in order and overwrite the file. -/
def saveReminders (st : ManagerState) (fs : FileSystem) : FileSystem :=
  { fs with remindersFile := some (st.reminders.map (fun r =>
      { user_id := some r.user_id, message := some r.message,
        remind_time := some (isoformat r.remind_time),
        created_at := some (isoformat r.created_at) })) }

/-- The per-entry body of `load_reminders`'s loop: build the dict,
`none` on a missing key (`KeyError`) or unparseable timestamp
(`ValueError`/`TypeError`), in which case the entry is skipped with a
warning. -/
def parseEntry (e : SavedEntry) : Option Reminder :=
  match e.user_id, e.message, e.remind_time, e.created_at with
  | some u, some msg, some rt, some ca =>
    (pyFromIso rt).bind fun rt' => (pyFromIso ca).map fun ca' =>
      { user_id := u, message := msg, remind_time := rt', created_at := ca' }
  | _, _, _, _ => none

/-- `load_reminders` (src/bot.py:306-334): a missing file keeps the
current in-memory list; otherwise the well-formed entries replace it and
are re-sorted. -/
def loadReminders (st : ManagerState) (fs : FileSystem) : ManagerState :=
  match fs.remindersFile with
  | none => st
  | some entries =>
    { reminders := List.insertionSort remLe (entries.filterMap parseEntry) }

/-- `save_shutdown_time` (src/bot.py:336-342): write the current instant
to `bot_shutdown.json`. -/
def saveShutdownTime (fs : FileSystem) (now : DateTime) : FileSystem :=
  { fs with shutdownFile := some (isoformat now) }

/-- `get_downtime` (src/bot.py:344-355): with no marker file, `None`;
with a parseable marker, the elapsed duration and the file is removed;
an unparseable marker raises before `os.remove`, so the exception
handler returns `None` with the file kept. -/
def getDowntime (fs : FileSystem) (now : DateTime) : Option Int × FileSystem :=
  match fs.shutdownFile with
  | none => (none, fs)
  | some content =>
    match pyFromIso content with
    | some t => (some (now.subMicros t), { fs with shutdownFile := none })
    | none => (none, fs)

/-- `add_reminder` (src/bot.py:357-368): append, re-sort, persist. -/
def addReminder (st : ManagerState) (fs : FileSystem) (u : Nat) (msg : String)
    (remind_time : DateTime) (now : DateTime) : ManagerState × FileSystem :=
  let st' : ManagerState :=
    { reminders := List.insertionSort remLe
        (st.reminders ++ [{ user_id := u, message := msg,
                            remind_time := remind_time, created_at := now }]) }
  (st', saveReminders st' fs)

/-- `pop_due_reminders` (src/bot.py:370-375): return the due sublist,
keep the not-due sublist. -/
def popDueReminders (st : ManagerState) (now : DateTime) :
    List Reminder × ManagerState :=
  (st.reminders.filter (fun r => dtLeB r.remind_time now),
   { reminders := st.reminders.filter (fun r => dtLtB now r.remind_time) })

/-- `REMINDER_RETRY_DELAY = timedelta(minutes=5)` (src/bot.py:60), in
seconds. -/
def REMINDER_RETRY_DELAY : Int := 300

/-- `requeue_reminder` (src/bot.py:377-384): copy the reminder with
`remind_time = now + delay`, append, re-sort (no persist). -/
def requeueReminder (st : ManagerState) (r : Reminder) (now : DateTime)
    (delay : Int := REMINDER_RETRY_DELAY) : ManagerState :=
  let updated : Reminder := { r with remind_time := now.addSeconds delay }
  { reminders := List.insertionSort remLe (st.reminders ++ [updated]) }

/-- The mutating operations of the manager, each carrying the value the
ambient clock (`datetime.now()`) or the file system supplies to it. -/
inductive MgrOp where
  | add (u : Nat) (msg : String) (t : DateTime) (now : DateTime)
  | requeue (r : Reminder) (delay : Int) (now : DateTime)
  | popDue (now : DateTime)
  | load (file : Option (List SavedEntry))
deriving Repr

/-- Effect of one operation on the in-memory reminder list. -/
def applyOp (st : ManagerState) : MgrOp → ManagerState
  | .add u msg t now => (addReminder st ⟨none, none⟩ u msg t now).1
  | .requeue r d now => requeueReminder st r now d
  | .popDue now => (popDueReminders st now).2
  | .load file => loadReminders st ⟨file, none⟩

/-! ### Statement-side helpers -/

/-- Canonical (unpadded) decimal rendering of a natural number, fuelled
so that it is structurally recursive; used to quantify over the literal
`N` of an `in N unit` input. -/
def renderNatAux : Nat → Nat → List Char
  | 0, _ => []
  | fuel + 1, n =>
    if n < 10 then [Nat.digitChar n]
    else renderNatAux fuel (n / 10) ++ [Nat.digitChar (n % 10)]

def renderNat (n : Nat) : List Char := renderNatAux (n + 1) n

/-- The number of seconds one recognized duration-unit token denotes,
following the source's `unit.startswith` dispatch. -/
def unitScale (unit : List Char) : Int :=
  if startsWithAny unit ["second".data, "sec".data, "s".data] then 1
  else if startsWithAny unit ["minute".data, "min".data, "m".data] then 60
  else if startsWithAny unit ["hour".data, "hr".data, "h".data] then 3600
  else 86400

/-! ## Lemmas and theorems -/

theorem leChainStep (x y : Nat) (e : Bool) :
    (if x < y then true else if y < x then false else e) = true
      ↔ (x < y ∨ (x = y ∧ e = true)) := by
  rcases Nat.lt_trichotomy x y with h | h | h
  · rw [if_pos h]
    simp [h]
  · subst h
    rw [if_neg (Nat.lt_irrefl x), if_neg (Nat.lt_irrefl x)]
    simp
  · rw [if_neg (by omega : ¬ x < y), if_pos h]
    simp only [Bool.false_eq_true, false_iff]
    rintro (h2 | ⟨h2, h3⟩) <;> omega

theorem dtLeB_iff (a b : DateTime) : dtLeB a b = true ↔
    (a.year < b.year ∨ (a.year = b.year ∧
      (a.month < b.month ∨ (a.month = b.month ∧
        (a.day < b.day ∨ (a.day = b.day ∧
          (a.hour < b.hour ∨ (a.hour = b.hour ∧
            (a.minute < b.minute ∨ (a.minute = b.minute ∧
              (a.second < b.second ∨ (a.second = b.second ∧
                a.usec ≤ b.usec)))))))))))) := by
  unfold dtLeB
  rw [leChainStep, leChainStep, leChainStep, leChainStep, leChainStep,
    leChainStep]
  simp [decide_eq_true_eq]

theorem dtLeB_total (a b : DateTime) : (dtLeB a b || dtLeB b a) = true := by
  rw [Bool.or_eq_true, dtLeB_iff, dtLeB_iff]
  omega

theorem dtLeB_trans (a b c : DateTime) (h1 : dtLeB a b = true)
    (h2 : dtLeB b c = true) : dtLeB a c = true := by
  rw [dtLeB_iff] at h1 h2 ⊢
  omega

instance : IsTotal Reminder remLe :=
  ⟨fun a b => by
    rcases Bool.or_eq_true_iff.mp (dtLeB_total a.remind_time b.remind_time) with h | h
    · exact Or.inl h
    · exact Or.inr h⟩

instance : IsTrans Reminder remLe :=
  ⟨fun _ _ _ h1 h2 => dtLeB_trans _ _ _ h1 h2⟩

/-- Each manager operation keeps the in-memory list sorted. -/
theorem sorted_applyOp (st : ManagerState) (op : MgrOp)
    (h : st.reminders.Sorted remLe) : (applyOp st op).reminders.Sorted remLe := by
  cases op with
  | add u msg t now => exact List.sorted_insertionSort remLe _
  | requeue r d now => exact List.sorted_insertionSort remLe _
  | popDue now => exact List.Pairwise.sublist (List.filter_sublist _) h
  | load file =>
    cases file with
    | none => exact h
    | some entries => exact List.sorted_insertionSort remLe _

theorem sorted_foldl_applyOp (ops : List MgrOp) (st : ManagerState)
    (h : st.reminders.Sorted remLe) :
    ((ops.foldl applyOp st).reminders).Sorted remLe := by
  induction ops generalizing st with
  | nil => exact h
  | cons op rest ih => exact ih (applyOp st op) (sorted_applyOp st op h)

/-- C9: after every sequence of `add_reminder`, `requeue_reminder`,
`pop_due_reminders`, and `load_reminders` operations starting from the
empty store, the in-memory reminder list is sorted ascending by
`remind_time`, and `pop_due_reminders` keeps the remaining reminders in
their relative order (it takes a sublist) while the other operations
re-sort. -/
theorem store_sorted_invariant :
    (∀ ops : List MgrOp, ((ops.foldl applyOp ⟨[]⟩).reminders).Sorted remLe)
    ∧ ∀ (st : ManagerState) (now : DateTime),
        ((popDueReminders st now).2.reminders).Sublist st.reminders := by
  constructor
  · intro ops
    exact sorted_foldl_applyOp ops ⟨[]⟩ (List.sorted_nil)
  · intro st now
    exact List.filter_sublist _

/-- C1: `pop_due_reminders` partitions the pending list exactly by
`remind_time <= now`: a reminder strictly in the future is not returned
and stays pending; a due reminder is returned, is removed from pending,
and no immediately subsequent `pop_due_reminders` call returns it
again. -/
theorem pop_due_partitions (st : ManagerState) (now : DateTime) (r : Reminder) :
    (popDueReminders st now).1
      = st.reminders.filter (fun x => dtLeB x.remind_time now)
    ∧ (popDueReminders st now).2.reminders
      = st.reminders.filter (fun x => !dtLeB x.remind_time now)
    ∧ (dtLeB r.remind_time now = false →
        r ∉ (popDueReminders st now).1
        ∧ (r ∈ (popDueReminders st now).2.reminders ↔ r ∈ st.reminders))
    ∧ (dtLeB r.remind_time now = true →
        (r ∈ (popDueReminders st now).1 ↔ r ∈ st.reminders)
        ∧ r ∉ (popDueReminders st now).2.reminders
        ∧ ∀ now2 : DateTime,
            r ∉ (popDueReminders (popDueReminders st now).2 now2).1) := by
  refine ⟨rfl, rfl, ?_, ?_⟩
  · intro h
    simp [popDueReminders, List.mem_filter, dtLtB, h]
  · intro h
    simp [popDueReminders, List.mem_filter, dtLtB, h]

theorem pop_due_partitions_witness :
    (⟨7, "x", ⟨2025, 5, 1, 12, 0, 0, 0⟩, ⟨2025, 4, 1, 0, 0, 0, 0⟩⟩ : Reminder)
      ∉ (popDueReminders ⟨[⟨7, "x", ⟨2025, 5, 1, 12, 0, 0, 0⟩, ⟨2025, 4, 1, 0, 0, 0, 0⟩⟩]⟩
            ⟨2025, 5, 1, 11, 59, 59, 999999⟩).1
    ∧ (⟨7, "x", ⟨2025, 5, 1, 12, 0, 0, 0⟩, ⟨2025, 4, 1, 0, 0, 0, 0⟩⟩ : Reminder)
      ∉ (popDueReminders
          (popDueReminders ⟨[⟨7, "x", ⟨2025, 5, 1, 12, 0, 0, 0⟩, ⟨2025, 4, 1, 0, 0, 0, 0⟩⟩]⟩
              ⟨2025, 5, 1, 12, 0, 0, 0⟩).2 ⟨2026, 1, 1, 0, 0, 0, 0⟩).1 :=
  ⟨((pop_due_partitions ⟨[⟨7, "x", ⟨2025, 5, 1, 12, 0, 0, 0⟩, ⟨2025, 4, 1, 0, 0, 0, 0⟩⟩]⟩
        ⟨2025, 5, 1, 11, 59, 59, 999999⟩
        ⟨7, "x", ⟨2025, 5, 1, 12, 0, 0, 0⟩, ⟨2025, 4, 1, 0, 0, 0, 0⟩⟩).2.2.1 (by decide)).1,
   ((pop_due_partitions ⟨[⟨7, "x", ⟨2025, 5, 1, 12, 0, 0, 0⟩, ⟨2025, 4, 1, 0, 0, 0, 0⟩⟩]⟩
        ⟨2025, 5, 1, 12, 0, 0, 0⟩
        ⟨7, "x", ⟨2025, 5, 1, 12, 0, 0, 0⟩, ⟨2025, 4, 1, 0, 0, 0, 0⟩⟩).2.2.2 (by decide)).2.2
      ⟨2026, 1, 1, 0, 0, 0, 0⟩⟩

/-- C3: `requeue_reminder` with the default delay re-inserts a copy of
the reminder whose `remind_time` is `now + 5` minutes (300 seconds =
`REMINDER_RETRY_DELAY`) while `user_id`, `message`, and `created_at`
are unchanged, and that copy is returned by a `pop_due_reminders` call
made at or after `now + 5` minutes. -/
theorem requeue_sets_retry_time (st : ManagerState) (r : Reminder) (now : DateTime) :
    (requeueReminder st r now).reminders.Perm
      ({ r with remind_time := now.addSeconds REMINDER_RETRY_DELAY } :: st.reminders)
    ∧ ({ r with remind_time := now.addSeconds REMINDER_RETRY_DELAY } : Reminder).user_id
        = r.user_id
    ∧ ({ r with remind_time := now.addSeconds REMINDER_RETRY_DELAY } : Reminder).message
        = r.message
    ∧ ({ r with remind_time := now.addSeconds REMINDER_RETRY_DELAY } : Reminder).created_at
        = r.created_at
    ∧ ({ r with remind_time := now.addSeconds REMINDER_RETRY_DELAY } : Reminder).remind_time
        = now.addSeconds 300
    ∧ ∀ now2 : DateTime, dtLeB (now.addSeconds REMINDER_RETRY_DELAY) now2 = true →
        ({ r with remind_time := now.addSeconds REMINDER_RETRY_DELAY } : Reminder)
          ∈ (popDueReminders (requeueReminder st r now) now2).1 := by
  refine ⟨?_, rfl, rfl, rfl, rfl, ?_⟩
  · exact (List.perm_insertionSort remLe _).trans (List.perm_append_singleton _ _)
  · intro now2 h
    have hmem : ({ r with remind_time := now.addSeconds REMINDER_RETRY_DELAY } : Reminder)
        ∈ (requeueReminder st r now).reminders :=
      ((List.perm_insertionSort remLe _).mem_iff).mpr
        (List.mem_append_right _ (List.mem_singleton_self _))
    simpa [popDueReminders, List.mem_filter, h] using hmem

theorem requeue_sets_retry_time_witness :
    (⟨9, "r", ⟨2025, 5, 1, 12, 5, 0, 0⟩, ⟨2025, 4, 1, 0, 0, 0, 0⟩⟩ : Reminder)
      ∈ (popDueReminders
          (requeueReminder ⟨[]⟩ ⟨9, "r", ⟨2025, 5, 1, 10, 0, 0, 0⟩, ⟨2025, 4, 1, 0, 0, 0, 0⟩⟩
            ⟨2025, 5, 1, 12, 0, 0, 0⟩) ⟨2025, 5, 1, 12, 5, 0, 0⟩).1 :=
  (requeue_sets_retry_time ⟨[]⟩ ⟨9, "r", ⟨2025, 5, 1, 10, 0, 0, 0⟩, ⟨2025, 4, 1, 0, 0, 0, 0⟩⟩
      ⟨2025, 5, 1, 12, 0, 0, 0⟩).2.2.2.2.2 ⟨2025, 5, 1, 12, 5, 0, 0⟩ (by decide)

/-- C5: after `save_shutdown_time`, a `get_downtime` call that
successfully returns a duration deletes the shutdown marker, so a
second `get_downtime` call with no intervening `save_shutdown_time`
returns `None` (at-most-once consumption). -/
theorem get_downtime_at_most_once (fs : FileSystem) (t0 now1 now2 : DateTime)
    (d : Int) (h : (getDowntime (saveShutdownTime fs t0) now1).1 = some d) :
    (getDowntime (saveShutdownTime fs t0) now1).2.shutdownFile = none
    ∧ getDowntime ((getDowntime (saveShutdownTime fs t0) now1).2) now2
        = (none, (getDowntime (saveShutdownTime fs t0) now1).2) := by
  cases hp : pyFromIso (isoformat t0) with
  | none =>
    exfalso
    simp [getDowntime, saveShutdownTime, hp] at h
  | some t =>
    simp [getDowntime, saveShutdownTime, hp]

theorem get_downtime_at_most_once_witness :
    (getDowntime (saveShutdownTime ⟨none, none⟩ ⟨2025, 1, 1, 0, 0, 0, 0⟩)
        ⟨2025, 1, 1, 0, 0, 1, 0⟩).2.shutdownFile = none
    ∧ getDowntime ((getDowntime (saveShutdownTime ⟨none, none⟩ ⟨2025, 1, 1, 0, 0, 0, 0⟩)
          ⟨2025, 1, 1, 0, 0, 1, 0⟩).2) ⟨2025, 1, 1, 0, 0, 2, 0⟩
        = (none, (getDowntime (saveShutdownTime ⟨none, none⟩ ⟨2025, 1, 1, 0, 0, 0, 0⟩)
          ⟨2025, 1, 1, 0, 0, 1, 0⟩).2) :=
  get_downtime_at_most_once ⟨none, none⟩ ⟨2025, 1, 1, 0, 0, 0, 0⟩
    ⟨2025, 1, 1, 0, 0, 1, 0⟩ ⟨2025, 1, 1, 0, 0, 2, 0⟩ 1000000 (by decide)

/-- C10: for every reference instant, `parse_reminder_time` applied to
the empty string or to any string consisting only of whitespace returns
`None` before trying any pattern class. -/
theorem parse_blank_returns_none (s : String)
    (h : ∀ c ∈ s.data, pyIsSpace c = true) (now : DateTime) :
    parse_reminder_time s now = none := by
  have h1 : s.data.dropWhile pyIsSpace = [] := by
    rw [List.dropWhile_eq_nil_iff]
    exact fun c hc => h c hc
  unfold parse_reminder_time pyStrip
  rw [h1]
  simp

theorem parse_blank_returns_none_witness :
    parse_reminder_time " \t " ⟨2025, 3, 10, 9, 0, 0, 0⟩ = none
    ∧ parse_reminder_time "" ⟨2025, 3, 10, 9, 0, 0, 0⟩ = none :=
  ⟨parse_blank_returns_none " \t " (by decide) ⟨2025, 3, 10, 9, 0, 0, 0⟩,
   parse_blank_returns_none "" (by decide) ⟨2025, 3, 10, 9, 0, 0, 0⟩⟩

/-- C4: contrary to the claim, a without-year Feb 29 input never
resolves to Feb 28 of the rolled year: `strptime` validates the parsed
month/day against its default year 1900, which is not a leap year, so
every `"%m/%d ..."` format raises `ValueError` on Feb 29 and
`parse_reminder_time` returns `None` (for the date+time form, the
date-only form, and a 12-hour variant alike).  The last conjunct shows
the Feb 29 → Feb 28 mapping the code's own `add_one_year` documents for
exactly this situation — the branch the parse path can never reach. -/
theorem feb29_without_year_returns_none :
    parse_reminder_time "02/29 14:30" ⟨2024, 3, 1, 12, 0, 0, 0⟩ = none
    ∧ parse_reminder_time "02/29" ⟨2024, 3, 1, 12, 0, 0, 0⟩ = none
    ∧ parse_reminder_time "02/29 2:30 PM" ⟨2024, 3, 1, 12, 0, 0, 0⟩ = none
    ∧ add_one_year ⟨2024, 2, 29, 14, 30, 0, 0⟩ = ⟨2025, 2, 28, 14, 30, 0, 0⟩ :=
  ⟨rfl, rfl, rfl, rfl⟩

/-- C7: a date+time input with a two-digit year `y` parses to year
`2000 + y` (strptime's `%y` maps 0-68 to the 2000s and 69-99 to the
1900s, and `normalize_2_digit_year` lifts the 19xx band by a century)
with the given month, day, hour, and minute, independently of `now` and
with no forward-rolling of past years: stated over every two-digit year
for the claim's scenario `10/08/yy 2:30 PM`, over every minute for
`10/08/25 2:mm PM`, and over every one-digit PM hour for
`10/08/25 h:30 PM`. -/
theorem two_digit_year_maps_to_2000s :
    (∀ y : Nat, y < 100 → ∀ now : DateTime,
      parse_reminder_time ⟨"10/08/".data ++ padDigits 2 y ++ " 2:30 PM".data⟩ now
        = some ⟨2000 + y, 10, 8, 14, 30, 0, 0⟩)
    ∧ (∀ mi : Nat, mi < 60 → ∀ now : DateTime,
      parse_reminder_time ⟨"10/08/25 2:".data ++ padDigits 2 mi ++ " PM".data⟩ now
        = some ⟨2025, 10, 8, 14, mi, 0, 0⟩)
    ∧ (∀ ho : Nat, 1 ≤ ho → ho ≤ 9 → ∀ now : DateTime,
      parse_reminder_time ⟨"10/08/25 ".data ++ Nat.digitChar ho :: ":30 PM".data⟩ now
        = some ⟨2025, 10, 8, ho + 12, 30, 0, 0⟩) := by
  refine ⟨?_, ?_, ?_⟩
  · intro y h now
    interval_cases y <;> rfl
  · intro mi h now
    interval_cases mi <;> rfl
  · intro ho h1 h2 now
    interval_cases ho <;> rfl

theorem two_digit_year_maps_to_2000s_witness :
    parse_reminder_time "10/08/25 2:30 PM" ⟨2031, 1, 1, 0, 0, 0, 0⟩
      = some ⟨2025, 10, 8, 14, 30, 0, 0⟩ :=
  two_digit_year_maps_to_2000s.1 25 (by decide) ⟨2031, 1, 1, 0, 0, 0, 0⟩

/-! ### Digit-string lemmas -/

theorem isDigitCh_digitChar {d : Nat} (h : d < 10) :
    isDigitCh (Nat.digitChar d) = true := by
  interval_cases d <;> decide

theorem dv_digitChar {d : Nat} (h : d < 10) : dv (Nat.digitChar d) = d := by
  interval_cases d <;> decide

theorem not_space_of_digit {c : Char} (h : isDigitCh c = true) :
    pyIsSpace c = false := by
  simp only [pyIsSpace, Bool.or_eq_false_iff, decide_eq_false_iff_not]
  refine ⟨⟨⟨⟨⟨?_, ?_⟩, ?_⟩, ?_⟩, ?_⟩, ?_⟩ <;>
    (rintro rfl; exact absurd h (by decide))

theorem pyToLower_of_digit {c : Char} (h : isDigitCh c = true) :
    pyToLower c = c := by
  simp only [isDigitCh, Bool.and_eq_true, decide_eq_true_eq] at h
  simp only [pyToLower, Bool.and_eq_true, decide_eq_true_eq]
  rw [if_neg]
  simp only [Bool.and_eq_true, decide_eq_true_eq, not_and]
  omega

theorem length_padDigits (k n : Nat) : (padDigits k n).length = k := by
  induction k generalizing n with
  | zero => rfl
  | succ k ih => simp [padDigits, ih]

theorem mem_padDigits_digit (k n : Nat) :
    ∀ c ∈ padDigits k n, isDigitCh c = true := by
  induction k generalizing n with
  | zero => intro c hc; simp [padDigits] at hc
  | succ k ih =>
    intro c hc
    simp only [padDigits, List.mem_append, List.mem_singleton] at hc
    rcases hc with hc | rfl
    · exact ih _ c hc
    · exact isDigitCh_digitChar (Nat.mod_lt _ (by omega))

theorem padDigits_succ_cons (k n : Nat) (h : n < 10 ^ (k + 1)) :
    padDigits (k + 1) n
      = Nat.digitChar (n / 10 ^ k) :: padDigits k (n % 10 ^ k) := by
  induction k generalizing n with
  | zero =>
    simp [padDigits, Nat.mod_eq_of_lt (by simpa using h)]
  | succ k ih =>
    have hd : n / 10 < 10 ^ (k + 1) := by
      rw [Nat.div_lt_iff_lt_mul (by omega)]
      calc n < 10 ^ (k + 2) := h
        _ = 10 ^ (k + 1) * 10 := by ring
    have e1 : n / 10 / 10 ^ k = n / 10 ^ (k + 1) := by
      rw [Nat.div_div_eq_div_mul, pow_succ, mul_comm (10 ^ k) 10,
        mul_comm 10 (10 ^ k)]
    have e2 : n / 10 % 10 ^ k = n % 10 ^ (k + 1) / 10 := by
      rw [← Nat.mod_mul_right_div_self, ← pow_succ']
    have e3 : n % 10 ^ (k + 1) % 10 = n % 10 := by
      exact Nat.mod_mod_of_dvd n (dvd_pow_self 10 (Nat.succ_ne_zero k))
    calc padDigits (k + 2) n
        = padDigits (k + 1) (n / 10) ++ [Nat.digitChar (n % 10)] := rfl
      _ = (Nat.digitChar (n / 10 / 10 ^ k) :: padDigits k (n / 10 % 10 ^ k))
            ++ [Nat.digitChar (n % 10)] := by rw [ih (n / 10) hd]
      _ = Nat.digitChar (n / 10 ^ (k + 1))
            :: (padDigits k (n % 10 ^ (k + 1) / 10)
                ++ [Nat.digitChar (n % 10 ^ (k + 1) % 10)]) := by
            rw [e1, e2, e3]
            rfl
      _ = Nat.digitChar (n / 10 ^ (k + 1)) :: padDigits (k + 1) (n % 10 ^ (k + 1)) := rfl

theorem readFixed_padDigits (k a n : Nat) (h : n < 10 ^ k) (rest : List Char) :
    readFixed a k (padDigits k n ++ rest) = some (a * 10 ^ k + n, rest) := by
  induction k generalizing a n with
  | zero =>
    have : n = 0 := by simpa using h
    subst this
    simp [padDigits, readFixed]
  | succ k ih =>
    have hq : n / 10 ^ k < 10 := by
      rw [Nat.div_lt_iff_lt_mul (Nat.pos_pow_of_pos k (by omega))]
      calc n < 10 ^ (k + 1) := h
        _ = 10 * 10 ^ k := by ring
    have hr : n % 10 ^ k < 10 ^ k := Nat.mod_lt _ (Nat.pos_pow_of_pos k (by omega))
    rw [padDigits_succ_cons k n h, List.cons_append]
    rw [show readFixed a (k + 1) (Nat.digitChar (n / 10 ^ k)
          :: (padDigits k (n % 10 ^ k) ++ rest))
        = if isDigitCh (Nat.digitChar (n / 10 ^ k))
          then readFixed (a * 10 + dv (Nat.digitChar (n / 10 ^ k))) k
            (padDigits k (n % 10 ^ k) ++ rest)
          else none from rfl]
    rw [if_pos (isDigitCh_digitChar hq), dv_digitChar hq, ih _ _ hr]
    have hn : 10 ^ k * (n / 10 ^ k) + n % 10 ^ k = n := Nat.div_add_mod n (10 ^ k)
    congr 2
    calc (a * 10 + n / 10 ^ k) * 10 ^ k + n % 10 ^ k
        = a * (10 ^ k * 10) + (10 ^ k * (n / 10 ^ k) + n % 10 ^ k) := by ring
      _ = a * 10 ^ (k + 1) + n := by rw [hn, pow_succ]

theorem digitsVal_append_digit (xs : List Char) (c : Char) :
    digitsVal (xs ++ [c]) = digitsVal xs * 10 + dv c := by
  simp [digitsVal, List.foldl_append]

theorem digitsVal_padDigits (k n : Nat) (h : n < 10 ^ k) :
    digitsVal (padDigits k n) = n := by
  induction k generalizing n with
  | zero =>
    have : n = 0 := by simpa using h
    subst this
    rfl
  | succ k ih =>
    have hd : n / 10 < 10 ^ k := by
      rw [Nat.div_lt_iff_lt_mul (by omega)]
      calc n < 10 ^ (k + 1) := h
        _ = 10 ^ k * 10 := by ring
    have : n / 10 % 10 < 10 := Nat.mod_lt _ (by omega)
    calc digitsVal (padDigits (k + 1) n)
        = digitsVal (padDigits k (n / 10) ++ [Nat.digitChar (n % 10)]) := rfl
      _ = digitsVal (padDigits k (n / 10)) * 10 + dv (Nat.digitChar (n % 10)) :=
          digitsVal_append_digit _ _
      _ = n / 10 * 10 + n % 10 := by
          rw [ih _ hd, dv_digitChar (Nat.mod_lt _ (by omega))]
      _ = n := by omega

theorem takeWhile_all_append {p : Char → Bool} (xs : List Char)
    (hall : ∀ c ∈ xs, p c = true) (y : Char) (hy : p y = false)
    (rest : List Char) :
    (xs ++ y :: rest).takeWhile p = xs
    ∧ (xs ++ y :: rest).dropWhile p = y :: rest := by
  induction xs with
  | nil => simp [List.takeWhile_cons, List.dropWhile_cons, hy]
  | cons x xs ih =>
    have hx : p x = true := hall x (List.mem_cons_self _ _)
    have ih2 := ih (fun c hc => hall c (List.mem_cons_of_mem _ hc))
    simp [List.takeWhile_cons, List.dropWhile_cons, hx, ih2.1, ih2.2]

theorem takeWhile_all {p : Char → Bool} (xs : List Char)
    (hall : ∀ c ∈ xs, p c = true) :
    xs.takeWhile p = xs ∧ xs.dropWhile p = [] := by
  induction xs with
  | nil => simp
  | cons x xs ih =>
    have hx : p x = true := hall x (List.mem_cons_self _ _)
    have ih2 := ih (fun c hc => hall c (List.mem_cons_of_mem _ hc))
    simp [List.takeWhile_cons, List.dropWhile_cons, hx, ih2.1, ih2.2]

theorem pyStrip_of_ends (l : List Char)
    (h1 : ∀ c, l.head? = some c → pyIsSpace c = false)
    (h2 : ∀ c, l.getLast? = some c → pyIsSpace c = false) :
    pyStrip l = l := by
  unfold pyStrip
  have e1 : l.dropWhile pyIsSpace = l := by
    cases l with
    | nil => rfl
    | cons a as => simp [List.dropWhile_cons, h1 a rfl]
  rw [e1]
  have e2 : l.reverse.dropWhile pyIsSpace = l.reverse := by
    cases hr : l.reverse with
    | nil => rfl
    | cons c t =>
      have hlast : l.getLast? = some c := by
        rw [← List.head?_reverse, hr]
        rfl
      simp [List.dropWhile_cons, h2 c hlast]
  rw [e2, List.reverse_reverse]

/-! ### The relative-duration class on canonical `in N unit` inputs -/

theorem renderNatAux_all_digits (fuel n : Nat) :
    ∀ c ∈ renderNatAux fuel n, isDigitCh c = true := by
  induction fuel generalizing n with
  | zero => intro c hc; simp [renderNatAux] at hc
  | succ fuel ih =>
    intro c hc
    by_cases h : n < 10
    · simp only [renderNatAux, if_pos h, List.mem_singleton] at hc
      subst hc
      exact isDigitCh_digitChar h
    · simp only [renderNatAux, if_neg h, List.mem_append,
        List.mem_singleton] at hc
      rcases hc with hc | rfl
      · exact ih _ c hc
      · exact isDigitCh_digitChar (Nat.mod_lt _ (by omega))

theorem renderNatAux_ne_nil (fuel n : Nat) (h : 0 < fuel) :
    renderNatAux fuel n ≠ [] := by
  cases fuel with
  | zero => omega
  | succ fuel =>
    by_cases hn : n < 10 <;> simp [renderNatAux, hn]

theorem digitsVal_renderNatAux (fuel n : Nat) (h : n < 10 ^ fuel) :
    digitsVal (renderNatAux fuel n) = n := by
  induction fuel generalizing n with
  | zero =>
    have : n = 0 := by simpa using h
    subst this
    rfl
  | succ fuel ih =>
    by_cases hn : n < 10
    · simp only [renderNatAux, if_pos hn]
      show digitsVal [Nat.digitChar n] = n
      simp [digitsVal, dv_digitChar hn]
    · have hd : n / 10 < 10 ^ fuel := by
        rw [Nat.div_lt_iff_lt_mul (by omega)]
        calc n < 10 ^ (fuel + 1) := h
          _ = 10 ^ fuel * 10 := by ring
      calc digitsVal (renderNatAux (fuel + 1) n)
          = digitsVal (renderNatAux fuel (n / 10) ++ [Nat.digitChar (n % 10)]) := by
            simp [renderNatAux, hn]
        _ = digitsVal (renderNatAux fuel (n / 10)) * 10 + dv (Nat.digitChar (n % 10)) :=
            digitsVal_append_digit _ _
        _ = n / 10 * 10 + n % 10 := by
            rw [ih _ hd, dv_digitChar (Nat.mod_lt _ (by omega))]
        _ = n := by omega

theorem renderNat_all_digits (n : Nat) :
    ∀ c ∈ renderNat n, isDigitCh c = true :=
  renderNatAux_all_digits (n + 1) n

theorem renderNat_ne_nil (n : Nat) : renderNat n ≠ [] :=
  renderNatAux_ne_nil (n + 1) n (by omega)

theorem digitsVal_renderNat (n : Nat) : digitsVal (renderNat n) = n := by
  have h10 : (1 : Nat) < 10 := by omega
  have h1 : n < 10 ^ n := Nat.lt_pow_self h10 n
  have h2 : (10 : Nat) ^ n ≤ 10 ^ (n + 1) :=
    Nat.pow_le_pow_right (by omega) (by omega)
  exact digitsVal_renderNatAux (n + 1) n (by omega)

/-- The facts about each unit token used in the canonical-input
lemmas: it is non-empty and starts with a non-space character, its last
character is not whitespace, lowercasing fixes it, and the regex's
token-membership test accepts it. -/
theorem unitToken_facts (tok : List Char) (htok : tok ∈ unitTokens) :
    (∃ c t, tok = c :: t ∧ pyIsSpace c = false)
    ∧ (∀ c, tok.getLast? = some c → pyIsSpace c = false)
    ∧ tok.map pyToLower = tok
    ∧ unitTokens.contains tok = true := by
  fin_cases htok <;>
    exact ⟨⟨_, _, rfl, by decide⟩, fun c hc => by
      simp_all; subst hc; decide, by decide, by decide⟩

theorem relMatch_canonical (N : Nat) (tok : List Char)
    (htok : tok ∈ unitTokens) :
    relMatch ('i' :: 'n' :: ' ' :: (renderNat N ++ ' ' :: tok))
      = some (N, tok) := by
  obtain ⟨⟨c0, t0, htok_cons, hc0⟩, _, _, hcontains⟩ := unitToken_facts tok htok
  obtain ⟨d, R, hR⟩ := List.exists_cons_of_ne_nil (renderNat_ne_nil N)
  have hdigits := renderNat_all_digits N
  have hd : isDigitCh d = true := hdigits d (by rw [hR]; exact List.mem_cons_self _ _)
  show (if ((' ' :: (renderNat N ++ ' ' :: tok)).takeWhile pyIsSpace).isEmpty
      then none else _) = some (N, tok)
  rw [List.takeWhile_cons, if_pos (by decide : pyIsSpace ' ' = true)]
  simp only [List.isEmpty_cons, if_false, Bool.false_eq_true]
  rw [List.dropWhile_cons, if_pos (by decide : pyIsSpace ' ' = true)]
  have hdrop1 : (renderNat N ++ ' ' :: tok).dropWhile pyIsSpace
      = renderNat N ++ ' ' :: tok := by
    rw [hR, List.cons_append, List.dropWhile_cons, if_neg]
    rw [not_space_of_digit hd]
    simp
  rw [hdrop1]
  have htd := takeWhile_all_append (p := isDigitCh) (renderNat N) hdigits ' '
    (by decide) tok
  rw [htd.1, htd.2]
  rw [if_neg (by simp [List.isEmpty_eq_true, renderNat_ne_nil N])]
  rw [List.dropWhile_cons, if_pos (by decide : pyIsSpace ' ' = true)]
  have hdrop2 : tok.dropWhile pyIsSpace = tok := by
    rw [htok_cons, List.dropWhile_cons, if_neg]
    rw [hc0]
    simp
  rw [hdrop2, if_pos hcontains, digitsVal_renderNat]

theorem map_self_of_mem {f : Char → Char} (l : List Char)
    (h : ∀ c ∈ l, f c = c) : l.map f = l := by
  induction l with
  | nil => simp
  | cons a t ih =>
    simp [h a (List.mem_cons_self _ _),
      ih (fun c hc => h c (List.mem_cons_of_mem _ hc))]

/-- Stripping fixes a canonical `in N unit` input. -/
theorem pyStrip_relative_input (N : Nat) (tok : List Char)
    (htok : tok ∈ unitTokens) :
    pyStrip ('i' :: 'n' :: ' ' :: (renderNat N ++ ' ' :: tok))
      = 'i' :: 'n' :: ' ' :: (renderNat N ++ ' ' :: tok) := by
  obtain ⟨⟨c0, t0, htok_cons, hc0⟩, hlast_tok, hmap_tok, hcontains⟩ :=
    unitToken_facts tok htok
  apply pyStrip_of_ends
  · intro c hc
    simp only [List.head?_cons, Option.some_inj] at hc
    subst hc
    decide
  · intro c hc
    have he : ('i' :: 'n' :: ' ' :: (renderNat N ++ ' ' :: tok)).getLast?
        = tok.getLast? := by
      show (('i' :: 'n' :: ' ' :: renderNat N) ++ (' ' :: tok)).getLast? = _
      rw [List.getLast?_append, htok_cons, List.getLast?_cons_cons]
      obtain ⟨x, hx⟩ := Option.isSome_iff_exists.mp
        (List.getLast?_isSome.mpr (List.cons_ne_nil c0 t0))
      rw [hx]
      rfl
    rw [he] at hc
    exact hlast_tok c hc

/-- Lowercasing fixes a canonical `in N unit` input. -/
theorem pyToLower_relative_input (N : Nat) (tok : List Char)
    (htok : tok ∈ unitTokens) :
    ('i' :: 'n' :: ' ' :: (renderNat N ++ ' ' :: tok)).map pyToLower
      = 'i' :: 'n' :: ' ' :: (renderNat N ++ ' ' :: tok) := by
  obtain ⟨_, _, hmap_tok, _⟩ := unitToken_facts tok htok
  simp only [List.map_cons, List.map_append,
    map_self_of_mem (renderNat N)
      (fun c hc => pyToLower_of_digit (renderNat_all_digits N c hc)),
    hmap_tok]
  rfl

theorem parse_relative_main (N : Nat) (hN : 1 ≤ N) (tok : List Char)
    (htok : tok ∈ unitTokens) (now : DateTime) :
    parse_reminder_time ⟨'i' :: 'n' :: ' ' :: (renderNat N ++ ' ' :: tok)⟩ now
      = some (now.addSeconds (unitScale tok * N)) := by
  unfold parse_reminder_time
  dsimp only
  rw [pyStrip_relative_input N tok htok]
  simp only [List.isEmpty_cons, Bool.false_eq_true, if_false]
  rw [pyToLower_relative_input N tok htok]
  rw [relMatch_canonical N tok htok]
  dsimp only
  rw [if_neg (by omega : ¬ N = 0)]
  unfold unitScale
  by_cases h1 : startsWithAny tok ["second".data, "sec".data, "s".data] = true
  · rw [if_pos h1, if_pos h1]
    try (congr 1; push_cast; try ring_nf)
  · rw [if_neg h1, if_neg h1]
    by_cases h2 : startsWithAny tok ["minute".data, "min".data, "m".data] = true
    · rw [if_pos h2, if_pos h2]
      try (congr 1; push_cast; try ring_nf)
    · rw [if_neg h2, if_neg h2]
      by_cases h3 : startsWithAny tok ["hour".data, "hr".data, "h".data] = true
      · rw [if_pos h3, if_pos h3]
        try (congr 1; push_cast; try ring_nf)
      · rw [if_neg h3, if_neg h3]
        try (congr 1; push_cast; try ring_nf)

theorem parse_relative_zero (tok : List Char) (htok : tok ∈ unitTokens)
    (now : DateTime) :
    parse_reminder_time ⟨'i' :: 'n' :: ' ' :: (renderNat 0 ++ ' ' :: tok)⟩ now
      = none := by
  unfold parse_reminder_time
  dsimp only
  rw [pyStrip_relative_input 0 tok htok]
  simp only [List.isEmpty_cons, Bool.false_eq_true, if_false]
  rw [pyToLower_relative_input 0 tok htok]
  rw [relMatch_canonical 0 tok htok]
  rfl

/-- C2: for every positive integer `N` and every recognized duration
unit token, parsing the canonical input `in N unit` yields exactly
`now + N * unit` seconds (`unitScale` maps the token through the
source's `startswith` dispatch: 1, 60, 3600, or 86400); an amount of
zero matches the pattern but is rejected, returning `None` (a negative
amount cannot match `\d+` at all, so such inputs fail outside this
class). -/
theorem parse_relative_duration :
    (∀ N : Nat, 1 ≤ N → ∀ tok ∈ unitTokens, ∀ now : DateTime,
      parse_reminder_time ⟨'i' :: 'n' :: ' ' :: (renderNat N ++ ' ' :: tok)⟩ now
        = some (now.addSeconds (unitScale tok * N)))
    ∧ (∀ tok ∈ unitTokens, ∀ now : DateTime,
      parse_reminder_time ⟨'i' :: 'n' :: ' ' :: (renderNat 0 ++ ' ' :: tok)⟩ now
        = none) :=
  ⟨fun N hN tok htok now => parse_relative_main N hN tok htok now,
   fun tok htok now => parse_relative_zero tok htok now⟩

theorem parse_relative_duration_witness :
    parse_reminder_time "in 3 m" ⟨2025, 3, 10, 9, 0, 0, 0⟩
      = some ⟨2025, 3, 10, 9, 3, 0, 0⟩
    ∧ parse_reminder_time "in 0 h" ⟨2025, 3, 10, 9, 0, 0, 0⟩ = none :=
  ⟨parse_relative_duration.1 3 (by decide) "m".data (by decide)
      ⟨2025, 3, 10, 9, 0, 0, 0⟩,
   parse_relative_duration.2 "h".data (by decide) ⟨2025, 3, 10, 9, 0, 0, 0⟩⟩

/-! ### Serialization round-trip -/

theorem daysInMonth_le_31 (y m : Nat) : daysInMonth y m ≤ 31 := by
  unfold daysInMonth
  split_ifs <;> omega

theorem mkDateTime_self (dt : DateTime) (h : validDT dt = true) :
    mkDateTime dt.year dt.month dt.day dt.hour dt.minute dt.second dt.usec
      = some dt := by
  unfold mkDateTime
  rw [if_pos h]

theorem expectCh_cons_self (c : Char) (rest : List Char) :
    expectCh c (c :: rest) = some rest := by
  simp [expectCh]

/-- `fromisoformat` is a left inverse of `isoformat` on valid
datetimes. -/
theorem pyFromIso_isoformat (dt : DateTime) (h : validDT dt = true) :
    pyFromIso (isoformat dt) = some dt := by
  have hb := h
  simp only [validDT, Bool.and_eq_true, decide_eq_true_eq] at hb
  obtain ⟨⟨⟨⟨⟨⟨⟨⟨⟨hy1, hy2⟩, hm1⟩, hm2⟩, hd1⟩, hd2⟩, hh⟩, hmi⟩, hs⟩, hus⟩ := hb
  have h31 := daysInMonth_le_31 dt.year dt.month
  have hylt : dt.year < 10 ^ 4 := by norm_num; omega
  have hmlt : dt.month < 10 ^ 2 := by norm_num; omega
  have hdlt : dt.day < 10 ^ 2 := by norm_num; omega
  have hhlt : dt.hour < 10 ^ 2 := by norm_num; omega
  have hmilt : dt.minute < 10 ^ 2 := by norm_num; omega
  have hslt : dt.second < 10 ^ 2 := by norm_num; omega
  have huslt : dt.usec < 10 ^ 6 := by norm_num; omega
  unfold isoformat pyFromIso
  rw [readFixed_padDigits 4 0 dt.year hylt]
  try dsimp only [Option.bind]
  rw [expectCh_cons_self]
  try dsimp only [Option.bind]
  rw [readFixed_padDigits 2 0 dt.month hmlt]
  try dsimp only [Option.bind]
  rw [expectCh_cons_self]
  try dsimp only [Option.bind]
  rw [readFixed_padDigits 2 0 dt.day hdlt]
  try dsimp only [Option.bind]
  simp only [List.isEmpty_cons, Bool.false_eq_true, if_false, anySep]
  try dsimp only [Option.bind]
  rw [readFixed_padDigits 2 0 dt.hour hhlt]
  try dsimp only [Option.bind]
  simp only [List.isEmpty_cons, Bool.false_eq_true, if_false]
  rw [expectCh_cons_self]
  try dsimp only [Option.bind]
  rw [readFixed_padDigits 2 0 dt.minute hmilt]
  try dsimp only [Option.bind]
  simp only [List.isEmpty_cons, Bool.false_eq_true, if_false]
  rw [expectCh_cons_self]
  try dsimp only [Option.bind]
  by_cases husec : dt.usec = 0
  · rw [if_pos husec]
    rw [readFixed_padDigits 2 0 dt.second hslt]
    try dsimp only [Option.bind]
    simp only [List.append_nil, List.isEmpty_nil, if_true]
    have hmk := mkDateTime_self dt h
    rw [husec] at hmk
    simpa using hmk
  · rw [if_neg husec]
    rw [readFixed_padDigits 2 0 dt.second hslt]
    try dsimp only [Option.bind]
    simp only [List.isEmpty_cons, Bool.false_eq_true, if_false]
    rw [expectCh_cons_self]
    try dsimp only [Option.bind]
    have hall := mem_padDigits_digit 6 dt.usec
    have htake := takeWhile_all (p := isDigitCh) (padDigits 6 dt.usec) hall
    rw [htake.2]
    rw [htake.1, length_padDigits]
    simp only [List.isEmpty_nil, if_true]
    rw [digitsVal_padDigits 6 dt.usec huslt]
    simpa using mkDateTime_self dt h

theorem filterMap_eq_self_of {α : Type} (l : List α) (f : α → Option α)
    (h : ∀ a ∈ l, f a = some a) : l.filterMap f = l := by
  induction l with
  | nil => rfl
  | cons a t ih =>
    rw [List.filterMap_cons, h a (List.mem_cons_self _ _),
      ih (fun x hx => h x (List.mem_cons_of_mem _ hx))]

/-- C6: `save_reminders` followed by `load_reminders` reproduces an
equivalent pending list — the same multiset of
`(user_id, message, remind_time, created_at)` values, up to the
reordering introduced by re-sorting — for every list of well-formed
reminders (datetimes a Python `datetime` can hold). -/
theorem save_load_round_trip (st : ManagerState) (fs : FileSystem)
    (st2 : ManagerState)
    (h : ∀ r ∈ st.reminders,
      validDT r.remind_time = true ∧ validDT r.created_at = true) :
    (loadReminders st2 (saveReminders st fs)).reminders.Perm st.reminders := by
  unfold loadReminders saveReminders
  dsimp only
  rw [List.filterMap_map]
  have hall : ∀ r ∈ st.reminders,
      (parseEntry ∘ fun r : Reminder =>
        ({ user_id := some r.user_id, message := some r.message,
           remind_time := some (isoformat r.remind_time),
           created_at := some (isoformat r.created_at) } : SavedEntry)) r
        = some r := by
    intro r hr
    show parseEntry _ = some r
    unfold parseEntry
    dsimp only
    rw [pyFromIso_isoformat _ (h r hr).1]
    try dsimp only [Option.bind]
    rw [pyFromIso_isoformat _ (h r hr).2]
    rfl
  rw [filterMap_eq_self_of _ _ hall]
  exact List.perm_insertionSort remLe st.reminders

theorem save_load_round_trip_witness :
    (loadReminders ⟨[]⟩ (saveReminders
        ⟨[⟨5, "hello", ⟨2025, 6, 1, 12, 0, 0, 500000⟩, ⟨2025, 5, 31, 23, 59, 59, 0⟩⟩]⟩
        ⟨none, none⟩)).reminders.Perm
      [⟨5, "hello", ⟨2025, 6, 1, 12, 0, 0, 500000⟩, ⟨2025, 5, 31, 23, 59, 59, 0⟩⟩] :=
  save_load_round_trip
    ⟨[⟨5, "hello", ⟨2025, 6, 1, 12, 0, 0, 500000⟩, ⟨2025, 5, 31, 23, 59, 59, 0⟩⟩]⟩
    ⟨none, none⟩ ⟨[]⟩ (by decide)

/-- C8: during `load_reminders`, an entry with a missing field or an
unparseable timestamp is skipped individually while every well-formed
entry of the same record is still loaded (the loaded list is exactly
the per-entry parses that succeed, re-sorted); the per-entry failures
are consumed as `Option.none` rather than escaping, so the load is
total. -/
theorem load_skips_malformed (st : ManagerState) (entries : List SavedEntry) :
    (loadReminders st ⟨some entries, none⟩).reminders.Perm
      (entries.filterMap parseEntry)
    ∧ (∀ e ∈ entries, ∀ r : Reminder, parseEntry e = some r →
        r ∈ (loadReminders st ⟨some entries, none⟩).reminders)
    ∧ (∀ e : SavedEntry,
        (e.user_id = none ∨ e.message = none ∨ e.remind_time = none
          ∨ e.created_at = none) → parseEntry e = none)
    ∧ (∀ (e : SavedEntry) (ts : List Char), e.remind_time = some ts →
        pyFromIso ts = none → parseEntry e = none) := by
  refine ⟨List.perm_insertionSort remLe _, ?_, ?_, ?_⟩
  · intro e he r hr
    have hmem : r ∈ entries.filterMap parseEntry :=
      List.mem_filterMap.mpr ⟨e, he, hr⟩
    exact ((List.perm_insertionSort remLe _).mem_iff).mpr hmem
  · intro e he
    rcases e with ⟨u, m, rt, ca⟩
    cases u <;> cases m <;> cases rt <;> cases ca <;> simp_all [parseEntry]
  · intro e ts hts hparse
    rcases e with ⟨u, m, rt, ca⟩
    simp only at hts
    subst hts
    cases u <;> cases m <;> cases ca <;> simp_all [parseEntry]

theorem load_skips_malformed_witness :
    (⟨1, "ok", ⟨2025, 6, 1, 12, 0, 0, 0⟩, ⟨2025, 5, 31, 23, 0, 0, 0⟩⟩ : Reminder)
      ∈ (loadReminders ⟨[]⟩
          ⟨some [⟨some 1, some "ok", some "2025-06-01T12:00:00".data,
                    some "2025-05-31T23:00:00".data⟩,
                 ⟨some 2, some "m", none, some "2025-05-31T23:00:00".data⟩,
                 ⟨some 3, some "b", some "not-a-date".data,
                    some "2025-05-31T23:00:00".data⟩],
            none⟩).reminders
    ∧ parseEntry ⟨some 2, some "m", none, some "2025-05-31T23:00:00".data⟩ = none
    ∧ parseEntry ⟨some 3, some "b", some "not-a-date".data,
        some "2025-05-31T23:00:00".data⟩ = none :=
  ⟨(load_skips_malformed ⟨[]⟩
      [⟨some 1, some "ok", some "2025-06-01T12:00:00".data,
          some "2025-05-31T23:00:00".data⟩,
       ⟨some 2, some "m", none, some "2025-05-31T23:00:00".data⟩,
       ⟨some 3, some "b", some "not-a-date".data,
          some "2025-05-31T23:00:00".data⟩]).2.1
      ⟨some 1, some "ok", some "2025-06-01T12:00:00".data,
          some "2025-05-31T23:00:00".data⟩
      (List.mem_cons_self _ _)
      ⟨1, "ok", ⟨2025, 6, 1, 12, 0, 0, 0⟩, ⟨2025, 5, 31, 23, 0, 0, 0⟩⟩ rfl,
   (load_skips_malformed ⟨[]⟩
      [⟨some 1, some "ok", some "2025-06-01T12:00:00".data,
          some "2025-05-31T23:00:00".data⟩,
       ⟨some 2, some "m", none, some "2025-05-31T23:00:00".data⟩,
       ⟨some 3, some "b", some "not-a-date".data,
          some "2025-05-31T23:00:00".data⟩]).2.2.1
      ⟨some 2, some "m", none, some "2025-05-31T23:00:00".data⟩
      (Or.inr (Or.inr (Or.inl rfl))),
   (load_skips_malformed ⟨[]⟩
      [⟨some 1, some "ok", some "2025-06-01T12:00:00".data,
          some "2025-05-31T23:00:00".data⟩,
       ⟨some 2, some "m", none, some "2025-05-31T23:00:00".data⟩,
       ⟨some 3, some "b", some "not-a-date".data,
          some "2025-05-31T23:00:00".data⟩]).2.2.2
      ⟨some 3, some "b", some "not-a-date".data,
          some "2025-05-31T23:00:00".data⟩
      "not-a-date".data rfl rfl⟩

end PeterBot
